import Mathlib

/-!
# Span lifecycle of the gRPC client stats handler

A shallow embedding of `contrib/google.golang.org/grpc/stats_client.go`.

The handler is stateless Go code whose only effects are calls on the tracer:
starting a span, tagging a span and handing a span to `finishWithError`.
The embedding passes the tracer around explicitly as the chronological log of
those calls (`Tracer`); every handler method maps a log to the extended log.
Properties of a span (its tags, how often it was finished) are read off the log.
-/

namespace DDTrace

/-! ## Data model -/

/-- Identity of a span; the Go code holds a `*tracer.Span`. -/
abbrev SpanId := Nat

/-- A Go `error` value; `nil` is `none` of `Option GoError`. -/
structure GoError where
  text : String
deriving DecidableEq, Repr

/-- A tag value: the Go code passes `interface{}` values that are strings or numbers. -/
inductive TagValue
  | str (s : String)
  | num (q : ℚ)
deriving DecidableEq

/-- The tags of a span, most recent assignment first. -/
abbrev TagMap := List (String × TagValue)

/-- Assign a tag: a later assignment to a key hides the earlier ones. -/
def tagSet (m : TagMap) (key : String) (value : TagValue) : TagMap :=
  (key, value) :: m

/-- Read a tag: the most recent assignment to the key, if any. -/
def tagGet (m : TagMap) (key : String) : Option TagValue :=
  List.lookup key m

/-- The part of `tracer.StartSpanConfig` that start options of this file write to. -/
structure StartSpanConfig where
  Tags : TagMap

/-- A `tracer.StartSpanOption`: in Go a `func(cfg *StartSpanConfig)`. -/
abbrev StartSpanOption := StartSpanConfig → StartSpanConfig

/-- Modelled from the spec: the declaration of `tracer.Tag` is not among the sources.
It is the start option that assigns one tag (the spec: a tag application
"appends or overwrites a tag"). -/
def tracer.Tag (key : String) (value : TagValue) : StartSpanOption :=
  fun c => { c with Tags := tagSet c.Tags key value }

/-- Modelled from the spec: the constant `ext.SpanKind` is declared outside the sources;
it is the name of the span kind tag. -/
def ext.SpanKind : String := "span.kind"

/-- Modelled from the spec: the constant `ext.SpanKindClient` is declared outside the
sources; the spec gives the kind as "client". -/
def ext.SpanKindClient : String := "client"

/-- Modelled from the spec: the constant `ext.TargetHost` is declared outside the sources;
it is the name of the target host tag. -/
def ext.TargetHost : String := "out.host"

/-- Modelled from the spec: the constant `ext.TargetPort` is declared outside the sources;
it is the name of the target port tag. -/
def ext.TargetPort : String := "out.port"

/-- The type of `config.serviceName`, declared outside the sources: a value with a
`String()` method. -/
structure ServiceName where
  value : String
deriving DecidableEq

/-- The method `String()` of the service name. -/
def ServiceName.String (n : ServiceName) : String := n.value

/-- Modelled from the spec: the declaration of the struct `config` is not among the
sources. The handler reads `serviceName`, `spanName` and `spanOpts`; the spec lists
"service name, span-name override, analytics sample rate, list of extra start-span
options". The rate is only stored and compared, never computed with; `none` stands
for "no rate". -/
structure config where
  serviceName : ServiceName
  spanName : String
  analyticsRate : Option ℚ
  spanOpts : List StartSpanOption

/-- The value of `new(config)`: every field holds its Go zero value. -/
def config.zero : config :=
  { serviceName := ⟨""⟩, spanName := "", analyticsRate := some 0, spanOpts := [] }

/-- The interface `Option` of the package (named `grpcOption` here, `Option` being taken):
a value with a method `apply(cfg *config)`, which updates the configuration. -/
structure grpcOption where
  apply : config → config

/-- The struct `clientStatsHandler`. -/
structure clientStatsHandler where
  cfg : config

/-- A call the handler makes on the tracer. -/
inductive Action
  | startSpan (span : SpanId) (method operation serviceName : String)
      (opts : List StartSpanOption)
  | setTag (span : SpanId) (key : String) (value : TagValue)
  | finishWithError (span : SpanId) (err : Option GoError) (cfg : config)

/-- The span an action is performed on. -/
def Action.span : Action → SpanId
  | .startSpan s _ _ _ _ => s
  | .setTag s _ _ => s
  | .finishWithError s _ _ => s

/-- The tracer, as the chronological log of the calls made on it. -/
abbrev Tracer := List Action

/-- A `context.Context`, reduced to what the handler and its helpers store in it:
the active span and the span whose trace context travels with the outgoing request. -/
structure Context where
  span : Option SpanId
  outgoing : Option SpanId
deriving DecidableEq, Repr

/-- The struct `stats.RPCTagInfo`. -/
structure RPCTagInfo where
  FullMethodName : String
  FailFast : Bool
deriving DecidableEq, Repr

/-- The implementations of the interface `stats.RPCStats` in package `stats`, each with
the fields the handler reads. `RemoteAddr` holds the text that `rs.RemoteAddr.String()` yields. -/
inductive RPCStats
  | Begin
  | InPayload
  | InHeader
  | InTrailer
  | OutPayload
  | OutHeader (RemoteAddr : String)
  | OutTrailer
  | End (Error : Option GoError)
deriving DecidableEq, Repr

/-- The struct `stats.ConnTagInfo`, addresses as text. -/
structure ConnTagInfo where
  RemoteAddr : String
  LocalAddr : String
deriving DecidableEq, Repr

/-- The implementations of the interface `stats.ConnStats`. -/
inductive ConnStats
  | ConnBegin (Client : Bool)
  | ConnEnd (Client : Bool)
deriving DecidableEq, Repr

/-! ## `net.SplitHostPort` of the Go standard library

Go strings are byte strings and the function looks only for the ASCII bytes `:`, `[`
and `]`; no byte of a multi-byte UTF-8 sequence is ASCII, so splitting at characters
gives the same parts. -/

/-- The reasons of an `*net.AddrError` that `SplitHostPort` returns. -/
inductive AddrError
  | missingPort
  | tooManyColons
  | missingBracket
  | unexpectedOpen
  | unexpectedClose
deriving DecidableEq, Repr

/-- Index of the first `c` in `s` (`bytealg.IndexByteString`); `none` is Go's `-1`. -/
def indexByte (s : List Char) (c : Char) : Option Nat :=
  match s with
  | [] => none
  | x :: xs => if x = c then some 0 else (indexByte xs c).map (· + 1)

/-- Index of the last `c` in `s` (`bytealg.LastIndexByteString`); `none` is Go's `-1`. -/
def lastIndexByte (s : List Char) (c : Char) : Option Nat :=
  match s with
  | [] => none
  | x :: xs =>
    match lastIndexByte xs c with
    | some i => some (i + 1)
    | none => if x = c then some 0 else none

/-- The function `net.SplitHostPort`: splits `host:port`, `host%zone:port`,
`[host]:port` or `[host%zone]:port` into host and port. -/
def net.SplitHostPort (hostport : String) : Except AddrError (String × String) :=
  let hp := hostport.data
  -- The port starts after the last colon.
  match lastIndexByte hp ':' with
  | none => .error .missingPort
  | some i =>
    let r : Except AddrError (List Char × Nat × Nat) :=
      if hp.head? = some '[' then
        -- Expect the first ']' just before the last ':'.
        match indexByte hp ']' with
        | none => .error .missingBracket
        | some e =>
          if e + 1 = hp.length then .error .missingPort
          else if e + 1 = i then .ok ((hp.take e).drop 1, 1, e + 1)
          else if hp.get? (e + 1) = some ':' then .error .tooManyColons
          else .error .missingPort
      else
        let host := hp.take i
        if (indexByte host ':').isSome then .error .tooManyColons
        else .ok (host, 0, 0)
    match r with
    | .error err => .error err
    | .ok (host, j, k) =>
      if (indexByte (hp.drop j) '[').isSome then .error .unexpectedOpen
      else if (indexByte (hp.drop k) ']').isSome then .error .unexpectedClose
      else .ok (String.mk host, String.mk (hp.drop (i + 1)))

/-! ## The tracer calls the handler makes -/

/-- Modelled from the spec: the method `Span.SetTag` of the tracer is not among the
sources. The spec has `Tag(span, key, value)`, which "appends or overwrites a tag";
the call is recorded in the log with its arguments. -/
def Span.SetTag (span : SpanId) (key : String) (value : TagValue) (t : Tracer) : Tracer :=
  t ++ [Action.setTag span key value]

/-- Modelled from the spec: `finishWithError` is not among the sources. The spec has it
as "the terminal, exactly-once operation" that finalizes the span and classifies the
error; a call is recorded in the log with its arguments, and a span counts as
finished once per recorded call. -/
def finishWithError (span : SpanId) (err : Option GoError) (cfg : config)
    (t : Tracer) : Tracer :=
  t ++ [Action.finishWithError span err cfg]

/-- Modelled from the spec: `tracer.SpanFromContext` is not among the sources; the spec
has `SpanFromContext(context) → (Span, found)`, here `some span` or `none`. -/
def tracer.SpanFromContext (ctx : Context) : Option SpanId :=
  ctx.span

/-- An identity no action of the log uses. -/
def Tracer.nextSpanId (t : Tracer) : SpanId :=
  t.foldl (fun n a => max n (a.span + 1)) 0

/-- Modelled from the spec: `startSpanFromContext` is not among the sources. The spec:
it creates a new span for the call, merges the start options, names it from the
configuration, and the updated context carries the new span ("new carrier = old
carrier + span reference"). The call is recorded with its arguments. -/
def startSpanFromContext (ctx : Context) (method operation serviceName : String)
    (opts : List StartSpanOption) (t : Tracer) : (SpanId × Context) × Tracer :=
  let span := t.nextSpanId
  ((span, { ctx with span := some span }),
    t ++ [Action.startSpan span method operation serviceName opts])

/-- Modelled from the spec: `injectSpanIntoContext` is not among the sources. It puts the
trace context of the span the context carries into the outgoing request; the span
reference of the context stays. -/
def injectSpanIntoContext (ctx : Context) : Context :=
  match tracer.SpanFromContext ctx with
  | none => ctx
  | some span => { ctx with outgoing := some span }

/-! ## `stats_client.go` -/

/-- The loop `for _, fn := range opts { fn.apply(cfg) }` of `NewClientStatsHandler`. -/
def NewClientStatsHandler.loop : List grpcOption → config → config
  | [], cfg => cfg
  | fn :: opts, cfg => NewClientStatsHandler.loop opts (fn.apply cfg)

/-- The function `NewClientStatsHandler`. `clientDefaults` is not among the sources and
is a parameter: it fills the fresh configuration with the client defaults. -/
def NewClientStatsHandler (clientDefaults : config → config)
    (opts : List grpcOption) : clientStatsHandler :=
  let cfg := config.zero
  let cfg := clientDefaults cfg
  let cfg := NewClientStatsHandler.loop opts cfg
  { cfg := cfg }

/-- The method `TagRPC`: starts a new span for the initiated RPC request. -/
def clientStatsHandler.TagRPC (h : clientStatsHandler) (ctx : Context) (rti : RPCTagInfo)
    (t : Tracer) : Context × Tracer :=
  let spanOpts := [tracer.Tag ext.SpanKind (.str ext.SpanKindClient)] ++ h.cfg.spanOpts
  let ((_, ctx), t) := startSpanFromContext ctx rti.FullMethodName h.cfg.spanName
    h.cfg.serviceName.String spanOpts t
  let ctx := injectSpanIntoContext ctx
  (ctx, t)

/-- The method `HandleRPC`: processes an RPC event for the span of the context. -/
def clientStatsHandler.HandleRPC (h : clientStatsHandler) (ctx : Context) (rs : RPCStats)
    (t : Tracer) : Tracer :=
  match tracer.SpanFromContext ctx with
  | none => t
  | some span =>
    match rs with
    | .OutHeader RemoteAddr =>
      match net.SplitHostPort RemoteAddr with
      | .ok (host, port) =>
        let t := if host ≠ "" then Span.SetTag span ext.TargetHost (.str host) t else t
        Span.SetTag span ext.TargetPort (.str port) t
      | .error _ => t
    | .End Error => finishWithError span Error h.cfg t
    | _ => t

/-- The method `TagConn`. -/
def clientStatsHandler.TagConn (_h : clientStatsHandler) (ctx : Context)
    (_info : ConnTagInfo) : Context :=
  ctx

/-- The method `HandleConn`: its body is empty. -/
def clientStatsHandler.HandleConn (_h : clientStatsHandler) (_ctx : Context)
    (_cs : ConnStats) (t : Tracer) : Tracer :=
  t

/-! ## Options of the configuration -/

/-- Modelled from the spec: the option `WithAnalytics` is not among the sources. The spec
has an "analytics enable flag" that shares the rate field with the explicit rate
("last-applied-option-wins when both are set"); enabled is rate 1.0, disabled is no
rate. -/
def WithAnalytics (enabled : Bool) : grpcOption :=
  ⟨fun cfg =>
    if enabled then { cfg with analyticsRate := some 1 } else { cfg with analyticsRate := none }⟩

/-- Modelled from the spec: the option `WithAnalyticsRate` is not among the sources. It
stores the "explicit sample rate" in the configuration. -/
def WithAnalyticsRate (rate : ℚ) : grpcOption :=
  ⟨fun cfg => { cfg with analyticsRate := some rate }⟩

/-! ## The instrumented Vault HTTP client -/

/-- Modelled from the spec: the constant `ext.ErrorMsg` is declared outside the sources;
it is the name of the error message tag. -/
def ext.ErrorMsg : String := "error.message"

/-- Modelled from the spec: the constant `ext.HTTPCode` is declared outside the sources;
it is the name of the status code tag. -/
def ext.HTTPCode : String := "http.status_code"

/-- Modelled from the spec: the constant `ext.HTTPMethod` is declared outside the sources;
it is the name of the method tag. -/
def ext.HTTPMethod : String := "http.method"

/-- Modelled from the spec: the constant `ext.HTTPURL` is declared outside the sources;
it is the name of the URL tag. -/
def ext.HTTPURL : String := "http.url"

/-- Modelled from the spec: the constant `ext.ResourceName` is declared outside the
sources; it is the name of the resource name tag. -/
def ext.ResourceName : String := "resource.name"

/-- An outbound request, reduced to what the span is tagged with. -/
structure HTTPRequest where
  Method : String
  Path : String
deriving DecidableEq, Repr

/-- The function `http.StatusText` of the Go standard library: the text of a status
code, empty for a code it does not know. -/
def http.StatusText (code : Nat) : String :=
  match code with
  | 100 => "Continue"
  | 101 => "Switching Protocols"
  | 102 => "Processing"
  | 103 => "Early Hints"
  | 200 => "OK"
  | 201 => "Created"
  | 202 => "Accepted"
  | 203 => "Non-Authoritative Information"
  | 204 => "No Content"
  | 205 => "Reset Content"
  | 206 => "Partial Content"
  | 207 => "Multi-Status"
  | 208 => "Already Reported"
  | 226 => "IM Used"
  | 300 => "Multiple Choices"
  | 301 => "Moved Permanently"
  | 302 => "Found"
  | 303 => "See Other"
  | 304 => "Not Modified"
  | 305 => "Use Proxy"
  | 307 => "Temporary Redirect"
  | 308 => "Permanent Redirect"
  | 400 => "Bad Request"
  | 401 => "Unauthorized"
  | 402 => "Payment Required"
  | 403 => "Forbidden"
  | 404 => "Not Found"
  | 405 => "Method Not Allowed"
  | 406 => "Not Acceptable"
  | 407 => "Proxy Authentication Required"
  | 408 => "Request Timeout"
  | 409 => "Conflict"
  | 410 => "Gone"
  | 411 => "Length Required"
  | 412 => "Precondition Failed"
  | 413 => "Request Entity Too Large"
  | 414 => "Request URI Too Long"
  | 415 => "Unsupported Media Type"
  | 416 => "Requested Range Not Satisfiable"
  | 417 => "Expectation Failed"
  | 418 => "I\x27m a teapot"
  | 421 => "Misdirected Request"
  | 422 => "Unprocessable Entity"
  | 423 => "Locked"
  | 424 => "Failed Dependency"
  | 425 => "Too Early"
  | 426 => "Upgrade Required"
  | 428 => "Precondition Required"
  | 429 => "Too Many Requests"
  | 431 => "Request Header Fields Too Large"
  | 451 => "Unavailable For Legal Reasons"
  | 500 => "Internal Server Error"
  | 501 => "Not Implemented"
  | 502 => "Bad Gateway"
  | 503 => "Service Unavailable"
  | 504 => "Gateway Timeout"
  | 505 => "HTTP Version Not Supported"
  | 506 => "Variant Also Negotiates"
  | 507 => "Insufficient Storage"
  | 508 => "Loop Detected"
  | 510 => "Not Extended"
  | 511 => "Network Authentication Required"
  | _ => ""

/-- Modelled from the spec: the classification of an HTTP response is not among the
sources. An error status is a status of the HTTP client error or server error class,
400 and above; the tests of the client have 404 as an error and 200 as none. -/
def vault.isErrorStatus (code : Nat) : Bool :=
  decide (400 ≤ code)

/-- Modelled from the spec: the message of an HTTP error is not among the sources. "For
HTTP-shaped errors, the canonical message is `<status-code>: <status-text>`". -/
def vault.errorMessage (code : Nat) : String :=
  toString code ++ ": " ++ http.StatusText code

/-- Modelled from the spec: the instrumented Vault HTTP client (`NewHTTPClient`,
`WrapHTTPClient`) is not among the sources, only its tests are. The spec: one span
per outbound request, "tagged with method, URL, status code, and resource name
`<METHOD> <path>`", and a request that completes with an error gets the canonical
error message. The result is the tags of the finished span of a request that
completed with status `code`. -/
def vault.finishedSpanTags (req : HTTPRequest) (code : Nat) : TagMap :=
  let tags : TagMap := []
  let tags := tagSet tags ext.HTTPMethod (.str req.Method)
  let tags := tagSet tags ext.HTTPURL (.str req.Path)
  let tags := tagSet tags ext.ResourceName (.str (req.Method ++ " " ++ req.Path))
  let tags := tagSet tags ext.HTTPCode (.num code)
  if vault.isErrorStatus code then
    tagSet tags ext.ErrorMsg (.str (vault.errorMessage code))
  else tags

/-! ## Reading the log -/

/-- The action starts a span. -/
def Action.isStart : Action → Bool
  | .startSpan _ _ _ _ _ => true
  | _ => false

/-- The action hands span `s` to `finishWithError`. -/
def Action.isFinishOf (s : SpanId) : Action → Bool
  | .finishWithError s' _ _ => s' == s
  | _ => false

/-- The action sets a tag on span `s`. -/
def Action.isSetTagOf (s : SpanId) : Action → Bool
  | .setTag s' _ _ => s' == s
  | _ => false

/-- Number of spans started in a log. -/
def startCount (log : List Action) : Nat :=
  log.countP Action.isStart

/-- Number of times span `s` is finished in a log. -/
def finishCount (s : SpanId) (log : List Action) : Nat :=
  log.countP (Action.isFinishOf s)

/-- Some tag is set on span `s` after `s` has been finished. -/
def taggedAfterFinish (s : SpanId) : List Action → Bool
  | [] => false
  | a :: rest => (a.isFinishOf s && rest.any (Action.isSetTagOf s)) || taggedAfterFinish s rest

/-- Modelled from the spec: the tracer's span start is not among the sources. The start
options are merged in call order into an empty start configuration, a later option
overriding an earlier one for the same tag. -/
def startTags (opts : List StartSpanOption) : TagMap :=
  (opts.foldl (fun c o => o c) (StartSpanConfig.mk [])).Tags

/-- Effect of one action on the tags of span `s`. -/
def tagStep (s : SpanId) (tags : TagMap) : Action → TagMap
  | .startSpan s' _ _ _ opts => if s' = s then startTags opts else tags
  | .setTag s' key value => if s' = s then tagSet tags key value else tags
  | .finishWithError _ _ _ => tags

/-- The tags of span `s` after a log. -/
def spanTags (s : SpanId) (log : List Action) : TagMap :=
  log.foldl (tagStep s) []

/-- The tags of span `s` at the moment it is first finished: those after the actions
that precede the first finish of `s`. -/
def tagsAtFinish (s : SpanId) (log : List Action) : TagMap :=
  spanTags s (log.takeWhile (fun a => !(a.isFinishOf s)))

/-- The event is a `stats.End`. -/
def RPCStats.isEnd : RPCStats → Bool
  | .End _ => true
  | _ => false

/-- The event is a `stats.OutHeader`. -/
def RPCStats.isOutHeader : RPCStats → Bool
  | .OutHeader _ => true
  | _ => false

/-- No `End` event of the sequence is followed by a further `End` or an `OutHeader`. -/
def endIsLast : List RPCStats → Bool
  | [] => true
  | rs :: rest =>
    (!rs.isEnd || rest.all (fun r => !r.isEnd && !r.isOutHeader)) && endIsLast rest

/-- The collaborator delivers a sequence of RPC events to `HandleRPC` on one context. -/
def deliver (h : clientStatsHandler) (ctx : Context) (evs : List RPCStats)
    (t : Tracer) : Tracer :=
  evs.foldl (fun t rs => h.HandleRPC ctx rs t) t

/-- One call under the collaborator protocol: `TagRPC`, then an `OutHeader` event for each
address, then one `End` event, all on the context `TagRPC` returned. -/
def callRun (h : clientStatsHandler) (ctx : Context) (rti : RPCTagInfo)
    (addrs : List String) (err : Option GoError) (t : Tracer) : Tracer :=
  let r := h.TagRPC ctx rti t
  h.HandleRPC r.1 (.End err) (deliver h r.1 (addrs.map RPCStats.OutHeader) r.2)

/-! ## Lemmas -/

theorem HandleRPC_append (h : clientStatsHandler) (ctx : Context) (rs : RPCStats)
    (t : Tracer) : h.HandleRPC ctx rs t = t ++ h.HandleRPC ctx rs [] := by
  unfold clientStatsHandler.HandleRPC
  cases hs : tracer.SpanFromContext ctx with
  | none => simp
  | some s =>
    cases rs with
    | OutHeader addr =>
      simp only
      cases hsp : net.SplitHostPort addr with
      | error e => simp
      | ok hp =>
        obtain ⟨host, port⟩ := hp
        by_cases hh : host = "" <;> simp [hh, Span.SetTag]
    | End e => simp [finishWithError]
    | _ => simp

theorem deliver_append (h : clientStatsHandler) (ctx : Context) (evs : List RPCStats)
    (t : Tracer) : deliver h ctx evs t = t ++ deliver h ctx evs [] := by
  induction evs generalizing t with
  | nil => simp [deliver]
  | cons rs rest ih =>
    have h1 : deliver h ctx (rs :: rest) t = deliver h ctx rest (h.HandleRPC ctx rs t) := rfl
    have h2 : deliver h ctx (rs :: rest) [] = deliver h ctx rest (h.HandleRPC ctx rs []) := rfl
    rw [h1, h2, ih (h.HandleRPC ctx rs t), ih (h.HandleRPC ctx rs []), HandleRPC_append,
      List.append_assoc]

theorem deliver_cons (h : clientStatsHandler) (ctx : Context) (rs : RPCStats)
    (rest : List RPCStats) :
    deliver h ctx (rs :: rest) [] = h.HandleRPC ctx rs [] ++ deliver h ctx rest [] := by
  have h2 : deliver h ctx (rs :: rest) [] = deliver h ctx rest (h.HandleRPC ctx rs []) := rfl
  rw [h2, deliver_append]

theorem spanTags_append (s : SpanId) (t l : List Action) :
    spanTags s (t ++ l) = l.foldl (tagStep s) (spanTags s t) := by
  simp [spanTags, List.foldl_append]

theorem finishCount_append (s : SpanId) (t l : List Action) :
    finishCount s (t ++ l) = finishCount s t + finishCount s l := by
  simp [finishCount, List.countP_append]

theorem HandleRPC_OutHeader_error (h : clientStatsHandler) (ctx : Context)
    (s : SpanId) (addr : String) (e : AddrError) (t : Tracer)
    (hs : tracer.SpanFromContext ctx = some s) (herr : net.SplitHostPort addr = .error e) :
    h.HandleRPC ctx (.OutHeader addr) t = t := by
  simp [clientStatsHandler.HandleRPC, hs, herr]

theorem HandleRPC_OutHeader_ok (h : clientStatsHandler) (ctx : Context) (s : SpanId)
    (addr host port : String) (t : Tracer) (hs : tracer.SpanFromContext ctx = some s)
    (hsplit : net.SplitHostPort addr = .ok (host, port)) :
    h.HandleRPC ctx (.OutHeader addr) t
      = t ++ ((if host ≠ "" then [Action.setTag s ext.TargetHost (.str host)] else [])
          ++ [Action.setTag s ext.TargetPort (.str port)]) := by
  by_cases hh : host = "" <;>
    simp [clientStatsHandler.HandleRPC, hs, hsplit, hh, Span.SetTag]

theorem taggedAfterFinish_append (s : SpanId) (l1 l2 : List Action) :
    taggedAfterFinish s (l1 ++ l2)
      = (taggedAfterFinish s l1 || (l1.any (Action.isFinishOf s) && l2.any (Action.isSetTagOf s))
          || taggedAfterFinish s l2) := by
  induction l1 with
  | nil => simp [taggedAfterFinish]
  | cons a l ih =>
    have hstep : taggedAfterFinish s (a :: l ++ l2)
        = ((a.isFinishOf s && (l ++ l2).any (Action.isSetTagOf s))
            || taggedAfterFinish s (l ++ l2)) := rfl
    have hstep1 : taggedAfterFinish s (a :: l)
        = ((a.isFinishOf s && l.any (Action.isSetTagOf s)) || taggedAfterFinish s l) := rfl
    rw [hstep, hstep1, ih, List.any_append, List.any_cons]
    generalize a.isFinishOf s = b1
    generalize List.any l (Action.isSetTagOf s) = b2
    generalize List.any l2 (Action.isSetTagOf s) = b3
    generalize taggedAfterFinish s l = b4
    generalize List.any l (Action.isFinishOf s) = b5
    generalize taggedAfterFinish s l2 = b6
    cases b1 <;> cases b2 <;> cases b3 <;> cases b4 <;> cases b5 <;> cases b6 <;> rfl

theorem taggedAfterFinish_of_no_finish (s : SpanId) (l : List Action)
    (hl : finishCount s l = 0) : taggedAfterFinish s l = false := by
  induction l with
  | nil => rfl
  | cons a l ih =>
    have hcons : finishCount s (a :: l) = finishCount s l + (if a.isFinishOf s then 1 else 0) := by
      simp [finishCount, List.countP_cons]
    rw [hcons] at hl
    have ha : a.isFinishOf s = false := by
      cases hfa : a.isFinishOf s
      · rfl
      · simp [hfa] at hl
    have hl2 : finishCount s l = 0 := by omega
    simp [taggedAfterFinish, ha, ih hl2]

theorem any_isFinishOf_of_no_finish (s : SpanId) (l : List Action)
    (hl : finishCount s l = 0) : l.any (Action.isFinishOf s) = false := by
  have h0 : List.countP (Action.isFinishOf s) l = 0 := hl
  rw [List.countP_eq_zero] at h0
  rw [List.any_eq_false]
  intro a ha
  exact h0 a ha

theorem HandleRPC_finishCount (h : clientStatsHandler) (ctx : Context) (s : SpanId)
    (rs : RPCStats) (hs : tracer.SpanFromContext ctx = some s) :
    finishCount s (h.HandleRPC ctx rs []) = if rs.isEnd then 1 else 0 := by
  cases rs with
  | OutHeader addr =>
    cases hsp : net.SplitHostPort addr with
    | error e => simp [clientStatsHandler.HandleRPC, hs, hsp, finishCount, RPCStats.isEnd]
    | ok hp =>
      obtain ⟨host, port⟩ := hp
      rw [HandleRPC_OutHeader_ok h ctx s addr host port [] hs hsp]
      by_cases hh : host = "" <;> simp [hh, finishCount, Action.isFinishOf, RPCStats.isEnd]
  | End e =>
    simp [clientStatsHandler.HandleRPC, hs, finishWithError, finishCount, Action.isFinishOf,
      RPCStats.isEnd]
  | _ => simp [clientStatsHandler.HandleRPC, hs, finishCount, RPCStats.isEnd]

theorem HandleRPC_quiet (h : clientStatsHandler) (ctx : Context) (rs : RPCStats)
    (h1 : rs.isEnd = false) (h2 : rs.isOutHeader = false) : h.HandleRPC ctx rs [] = [] := by
  cases rs <;> simp_all [clientStatsHandler.HandleRPC, RPCStats.isEnd, RPCStats.isOutHeader] <;>
    cases tracer.SpanFromContext ctx <;> rfl

theorem deliver_quiet (h : clientStatsHandler) (ctx : Context) (evs : List RPCStats)
    (hq : evs.all (fun r => !r.isEnd && !r.isOutHeader) = true) : deliver h ctx evs [] = [] := by
  induction evs with
  | nil => rfl
  | cons rs rest ih =>
    simp only [List.all_cons, Bool.and_eq_true, Bool.not_eq_true'] at hq
    rw [deliver_cons, HandleRPC_quiet h ctx rs hq.1.1 hq.1.2, ih hq.2]
    rfl

theorem deliver_finishCount (h : clientStatsHandler) (ctx : Context) (s : SpanId)
    (evs : List RPCStats) (hs : tracer.SpanFromContext ctx = some s) :
    finishCount s (deliver h ctx evs []) = evs.countP RPCStats.isEnd := by
  induction evs with
  | nil => rfl
  | cons rs rest ih =>
    rw [deliver_cons, finishCount_append, ih, HandleRPC_finishCount h ctx s rs hs,
      List.countP_cons]
    omega

theorem foldl_max_le (t : List Action) (n : Nat) :
    n ≤ t.foldl (fun n a => max n (a.span + 1)) n := by
  induction t generalizing n with
  | nil => exact Nat.le_refl n
  | cons a l ih => exact Nat.le_trans (Nat.le_max_left n (a.span + 1)) (ih _)

theorem foldl_max_gt (t : List Action) (n : Nat) :
    ∀ a ∈ t, a.span < t.foldl (fun n a => max n (a.span + 1)) n := by
  induction t generalizing n with
  | nil => intro a ha; cases ha
  | cons b l ih =>
    intro a ha
    rcases List.mem_cons.mp ha with hab | hal
    · subst hab
      have h1 : a.span + 1 ≤ max n (a.span + 1) := Nat.le_max_right n (a.span + 1)
      have h2 := foldl_max_le l (max n (a.span + 1))
      exact Nat.lt_of_lt_of_le (Nat.lt_of_lt_of_le (Nat.lt_succ_self _) h1) h2
    · exact ih _ a hal

theorem nextSpanId_fresh (t : Tracer) : ∀ a ∈ t, a.span ≠ t.nextSpanId := by
  intro a ha
  exact Nat.ne_of_lt (foldl_max_gt t 0 a ha)

theorem finishCount_of_fresh (s : SpanId) (t : List Action) (hf : ∀ a ∈ t, a.span ≠ s) :
    finishCount s t = 0 := by
  unfold finishCount
  rw [List.countP_eq_zero]
  intro a ha
  have hne := hf a ha
  cases a <;> simp_all [Action.isFinishOf, Action.span]

theorem foldl_startOptions_keep (key : String) (opts : List StartSpanOption)
    (hk : ∀ o ∈ opts, ∀ c : StartSpanConfig, tagGet (o c).Tags key = tagGet c.Tags key)
    (c : StartSpanConfig) :
    tagGet (opts.foldl (fun c o => o c) c).Tags key = tagGet c.Tags key := by
  induction opts generalizing c with
  | nil => rfl
  | cons o rest ih =>
    have h1 := ih (fun o2 ho2 => hk o2 (List.mem_cons_of_mem _ ho2)) (o c)
    have h2 := hk o (List.mem_cons_self _ _) c
    exact h1.trans h2

theorem TagRPC_log (h : clientStatsHandler) (ctx : Context) (rti : RPCTagInfo) (t : Tracer) :
    (h.TagRPC ctx rti t).2
      = t ++ [Action.startSpan t.nextSpanId rti.FullMethodName h.cfg.spanName
          h.cfg.serviceName.String
          (tracer.Tag ext.SpanKind (.str ext.SpanKindClient) :: h.cfg.spanOpts)] :=
  rfl

theorem TagRPC_ctx (h : clientStatsHandler) (ctx : Context) (rti : RPCTagInfo) (t : Tracer) :
    tracer.SpanFromContext (h.TagRPC ctx rti t).1 = some t.nextSpanId :=
  rfl

theorem spanTags_after_start (s : SpanId) (t : List Action) (m op sv : String)
    (opts : List StartSpanOption) :
    spanTags s (t ++ [Action.startSpan s m op sv opts]) = startTags opts := by
  rw [spanTags_append]
  simp [tagStep]

theorem tagGet_tagSet (m : TagMap) (k0 k : String) (v0 : TagValue) :
    tagGet (tagSet m k0 v0) k = if k = k0 then some v0 else tagGet m k := by
  unfold tagGet tagSet
  rw [List.lookup_cons]
  by_cases hk : k = k0
  · subst hk; simp
  · have hb : (k == k0) = false := by simpa using hk
    simp [hb, hk]

theorem deliver_app (h : clientStatsHandler) (ctx : Context) (l1 l2 : List RPCStats) :
    deliver h ctx (l1 ++ l2) [] = deliver h ctx l1 [] ++ deliver h ctx l2 [] := by
  have h1 : deliver h ctx (l1 ++ l2) [] = deliver h ctx l2 (deliver h ctx l1 []) := by
    simp [deliver, List.foldl_append]
  rw [h1, deliver_append]

theorem HandleRPC_OutHeader_new (h : clientStatsHandler) (ctx : Context) (s : SpanId)
    (addr : String) (hs : tracer.SpanFromContext ctx = some s) :
    ∀ a ∈ h.HandleRPC ctx (.OutHeader addr) [], ∃ k v, a = Action.setTag s k v := by
  intro a ha
  cases hsp : net.SplitHostPort addr with
  | error e =>
    rw [HandleRPC_OutHeader_error h ctx s addr e [] hs hsp] at ha
    cases ha
  | ok hp =>
    obtain ⟨host, port⟩ := hp
    rw [HandleRPC_OutHeader_ok h ctx s addr host port [] hs hsp] at ha
    by_cases hh : host = ""
    · simp [hh] at ha
      exact ⟨_, _, ha⟩
    · simp [hh] at ha
      rcases ha with ha | ha
      · exact ⟨_, _, ha⟩
      · exact ⟨_, _, ha⟩

theorem deliver_OutHeaders_setTags (h : clientStatsHandler) (ctx : Context) (s : SpanId)
    (addrs : List String) (hs : tracer.SpanFromContext ctx = some s) :
    ∀ a ∈ deliver h ctx (addrs.map RPCStats.OutHeader) [], ∃ k v, a = Action.setTag s k v := by
  induction addrs with
  | nil => intro a ha; cases ha
  | cons addr rest ih =>
    intro a ha
    rw [List.map_cons, deliver_cons, List.mem_append] at ha
    rcases ha with ha | ha
    · exact HandleRPC_OutHeader_new h ctx s addr hs a ha
    · exact ih a ha

theorem deliver_OutHeaders_mem (h : clientStatsHandler) (ctx : Context) (s : SpanId)
    (addrs : List String) (hs : tracer.SpanFromContext ctx = some s) :
    ∀ addr ∈ addrs, ∀ host port, net.SplitHostPort addr = .ok (host, port) →
      Action.setTag s ext.TargetPort (.str port)
          ∈ deliver h ctx (addrs.map RPCStats.OutHeader) []
        ∧ (host ≠ "" → Action.setTag s ext.TargetHost (.str host)
          ∈ deliver h ctx (addrs.map RPCStats.OutHeader) []) := by
  induction addrs with
  | nil => intro addr ha; cases ha
  | cons a0 rest ih =>
    intro addr ha host port hsp
    rw [List.map_cons, deliver_cons]
    rcases List.mem_cons.mp ha with h0 | hr
    · subst h0
      rw [HandleRPC_OutHeader_ok h ctx s addr host port [] hs hsp]
      refine ⟨by simp, ?_⟩
      intro hh
      simp [hh]
    · obtain ⟨h1, h2⟩ := ih addr hr host port hsp
      exact ⟨List.mem_append_right _ h1, fun hh => List.mem_append_right _ (h2 hh)⟩

theorem foldl_setTags_present (s : SpanId) (tags : List Action)
    (hall : ∀ a ∈ tags, ∃ k v, a = Action.setTag s k v) (base : TagMap) :
    ∀ k v, Action.setTag s k v ∈ tags →
      ∃ v2, tagGet (tags.foldl (tagStep s) base) k = some v2 ∧ Action.setTag s k v2 ∈ tags := by
  induction tags using List.reverseRecOn with
  | nil => intro k v hm; cases hm
  | append_singleton l a ih =>
    intro k v hm
    obtain ⟨k0, v0, ha⟩ := hall a (by simp)
    subst ha
    have hfold : (l ++ [Action.setTag s k0 v0]).foldl (tagStep s) base
        = tagSet (l.foldl (tagStep s) base) k0 v0 := by
      simp [List.foldl_append, tagStep]
    rw [hfold, tagGet_tagSet]
    by_cases hk : k = k0
    · subst hk
      exact ⟨v0, by simp, by simp⟩
    · rw [if_neg hk]
      have hml : Action.setTag s k v ∈ l := by
        rcases List.mem_append.mp hm with hl | hl
        · exact hl
        · simp at hl
          exact absurd hl.1 hk
      obtain ⟨v2, hv2, hm2⟩ := ih (fun a ha => hall a (List.mem_append_left _ ha)) k v hml
      exact ⟨v2, hv2, List.mem_append_left _ hm2⟩

theorem takeWhile_append_singleton (p : Action → Bool) (l : List Action) (y : Action)
    (hl : ∀ a ∈ l, p a = true) (hy : p y = false) : (l ++ [y]).takeWhile p = l := by
  induction l with
  | nil => simp [List.takeWhile, hy]
  | cons a l ih =>
    have ha : p a = true := hl a (List.mem_cons_self _ _)
    simp [List.takeWhile, ha, ih (fun b hb => hl b (List.mem_cons_of_mem _ hb))]

theorem callRun_log (h : clientStatsHandler) (ctx : Context) (rti : RPCTagInfo)
    (addrs : List String) (err : Option GoError) (t : Tracer) :
    callRun h ctx rti addrs err t
      = t ++ [Action.startSpan t.nextSpanId rti.FullMethodName h.cfg.spanName
            h.cfg.serviceName.String
            (tracer.Tag ext.SpanKind (.str ext.SpanKindClient) :: h.cfg.spanOpts)]
          ++ deliver h (h.TagRPC ctx rti t).1 (addrs.map RPCStats.OutHeader) []
          ++ [Action.finishWithError t.nextSpanId err h.cfg] := by
  unfold callRun
  have hend : ∀ t2 : Tracer, h.HandleRPC (h.TagRPC ctx rti t).1 (.End err) t2
      = t2 ++ [Action.finishWithError t.nextSpanId err h.cfg] := by
    intro t2
    simp [clientStatsHandler.HandleRPC, TagRPC_ctx, finishWithError]
  simp only []
  rw [hend, deliver_append, TagRPC_log]

theorem loop_eq_foldl (opts : List grpcOption) (cfg : config) :
    NewClientStatsHandler.loop opts cfg = opts.foldl (fun cfg fn => fn.apply cfg) cfg := by
  induction opts generalizing cfg with
  | nil => rfl
  | cons fn rest ih => exact ih (fn.apply cfg)

theorem loop_append (l1 l2 : List grpcOption) (cfg : config) :
    NewClientStatsHandler.loop (l1 ++ l2) cfg
      = NewClientStatsHandler.loop l2 (NewClientStatsHandler.loop l1 cfg) := by
  induction l1 generalizing cfg with
  | nil => rfl
  | cons fn rest ih => exact ih (fn.apply cfg)

theorem loop_keeps (α : Type) (field : config → α) (post : List grpcOption)
    (hk : ∀ p ∈ post, ∀ c, field (p.apply c) = field c) (cfg : config) :
    field (NewClientStatsHandler.loop post cfg) = field cfg := by
  induction post generalizing cfg with
  | nil => rfl
  | cons p rest ih =>
    have h1 := ih (fun q hq => hk q (List.mem_cons_of_mem _ hq)) (p.apply cfg)
    exact h1.trans (hk p (List.mem_cons_self _ _) cfg)

/-! ## Theorems -/

/-- C3: on a context carrying span `s`, one `HandleRPC` call with an `End` event of error
value `e` (`none` for a successful call) adds exactly one action to the log: the call
of `finishWithError` on `s` with `e` and the configuration of the handler. No tag is
set. -/
theorem HandleRPC_End_finishes_once (h : clientStatsHandler) (ctx : Context) (s : SpanId)
    (e : Option GoError) (t : Tracer) (hs : tracer.SpanFromContext ctx = some s) :
    h.HandleRPC ctx (.End e) t = t ++ [Action.finishWithError s e h.cfg]
      ∧ finishCount s (h.HandleRPC ctx (.End e) []) = 1
      ∧ (h.HandleRPC ctx (.End e) []).any (Action.isSetTagOf s) = false := by
  have key : ∀ t : Tracer, h.HandleRPC ctx (.End e) t = t ++ [Action.finishWithError s e h.cfg] := by
    intro t
    simp [clientStatsHandler.HandleRPC, hs, finishWithError]
  refine ⟨key t, ?_, ?_⟩
  · rw [key]; simp [finishCount, Action.isFinishOf]
  · rw [key]; simp [Action.isSetTagOf]

theorem HandleRPC_End_finishes_once_witness :
    (clientStatsHandler.mk config.zero).HandleRPC ⟨some 3, none⟩ (.End (some ⟨"boom"⟩)) []
        = [] ++ [Action.finishWithError 3 (some ⟨"boom"⟩) config.zero]
      ∧ finishCount 3 ((clientStatsHandler.mk config.zero).HandleRPC ⟨some 3, none⟩
          (.End (some ⟨"boom"⟩)) []) = 1
      ∧ ((clientStatsHandler.mk config.zero).HandleRPC ⟨some 3, none⟩
          (.End (some ⟨"boom"⟩)) []).any (Action.isSetTagOf 3) = false :=
  HandleRPC_End_finishes_once (clientStatsHandler.mk config.zero) ⟨some 3, none⟩ 3
    (some ⟨"boom"⟩) [] rfl

/-- C5: on a context that carries no span, `HandleRPC` leaves the log as it is for every
RPC event: no tag is set, no span is finished, `finishWithError` is not called and no
span is started. -/
theorem HandleRPC_without_span (h : clientStatsHandler) (ctx : Context) (rs : RPCStats)
    (t : Tracer) (hs : tracer.SpanFromContext ctx = none) :
    h.HandleRPC ctx rs t = t := by
  simp [clientStatsHandler.HandleRPC, hs]

theorem HandleRPC_without_span_witness :
    (clientStatsHandler.mk config.zero).HandleRPC ⟨none, none⟩ (.End none)
      [Action.setTag 1 "k" (.str "v")] = [Action.setTag 1 "k" (.str "v")] :=
  HandleRPC_without_span (clientStatsHandler.mk config.zero) ⟨none, none⟩ (.End none)
    [Action.setTag 1 "k" (.str "v")] rfl

/-- C6: on a context carrying a span, an `OutHeader` event whose remote address
`net.SplitHostPort` rejects leaves the log as it is: neither the target host nor the
target port tag is set, no error is set and the span is not finished. -/
theorem HandleRPC_OutHeader_unsplittable (h : clientStatsHandler) (ctx : Context)
    (s : SpanId) (addr : String) (e : AddrError) (t : Tracer)
    (hs : tracer.SpanFromContext ctx = some s) (herr : net.SplitHostPort addr = .error e) :
    h.HandleRPC ctx (.OutHeader addr) t = t := by
  simp [clientStatsHandler.HandleRPC, hs, herr]

theorem HandleRPC_OutHeader_unsplittable_witness :
    (clientStatsHandler.mk config.zero).HandleRPC ⟨some 0, none⟩ (.OutHeader "localhost") []
      = [] :=
  HandleRPC_OutHeader_unsplittable (clientStatsHandler.mk config.zero) ⟨some 0, none⟩ 0
    "localhost" AddrError.missingPort [] rfl rfl

/-- C10: the connection hooks are ignored: `TagConn` returns the context it was given and
`HandleConn` leaves the log as it is (no span started, no tag set, no span finished). -/
theorem conn_hooks_ignored (h : clientStatsHandler) (ctx : Context) (info : ConnTagInfo)
    (cs : ConnStats) (t : Tracer) :
    h.TagConn ctx info = ctx ∧ h.HandleConn ctx cs t = t :=
  ⟨rfl, rfl⟩

/-- C4: on a context carrying span `s`, an `OutHeader` event whose remote address splits
into `host` and `port` makes `HandleRPC` set the target port tag to `port` in every
case and the target host tag to `host` exactly when `host` is not empty, and nothing
else: the span is not finished. For "1.2.3.4:8200" the span gets host "1.2.3.4" and
port "8200"; for ":8200" the port tag is set and the host tag stays absent. -/
theorem HandleRPC_OutHeader_tags (h : clientStatsHandler) (ctx : Context) (s : SpanId)
    (t : Tracer) (hs : tracer.SpanFromContext ctx = some s) :
    (∀ addr host port, net.SplitHostPort addr = .ok (host, port) →
      h.HandleRPC ctx (.OutHeader addr) t
          = t ++ ((if host ≠ "" then [Action.setTag s ext.TargetHost (.str host)] else [])
              ++ [Action.setTag s ext.TargetPort (.str port)])
        ∧ tagGet (spanTags s (h.HandleRPC ctx (.OutHeader addr) t)) ext.TargetPort
            = some (.str port)
        ∧ (host ≠ "" → tagGet (spanTags s (h.HandleRPC ctx (.OutHeader addr) t))
            ext.TargetHost = some (.str host))
        ∧ (host = "" → tagGet (spanTags s (h.HandleRPC ctx (.OutHeader addr) t))
            ext.TargetHost = tagGet (spanTags s t) ext.TargetHost)
        ∧ ((∃ v, Action.setTag s ext.TargetHost v ∈ h.HandleRPC ctx (.OutHeader addr) [])
            ↔ host ≠ "")
        ∧ finishCount s (h.HandleRPC ctx (.OutHeader addr) t) = finishCount s t)
    ∧ (tagGet (spanTags s (h.HandleRPC ctx (.OutHeader "1.2.3.4:8200") t)) ext.TargetHost
          = some (.str "1.2.3.4")
        ∧ tagGet (spanTags s (h.HandleRPC ctx (.OutHeader "1.2.3.4:8200") t)) ext.TargetPort
          = some (.str "8200"))
    ∧ (tagGet (spanTags s t) ext.TargetHost = none →
        tagGet (spanTags s (h.HandleRPC ctx (.OutHeader ":8200") t)) ext.TargetHost = none
        ∧ tagGet (spanTags s (h.HandleRPC ctx (.OutHeader ":8200") t)) ext.TargetPort
          = some (.str "8200")) := by
  have hne : (ext.TargetHost == ext.TargetPort) = false := by decide
  have general : ∀ addr host port, net.SplitHostPort addr = .ok (host, port) →
      h.HandleRPC ctx (.OutHeader addr) t
          = t ++ ((if host ≠ "" then [Action.setTag s ext.TargetHost (.str host)] else [])
              ++ [Action.setTag s ext.TargetPort (.str port)])
        ∧ tagGet (spanTags s (h.HandleRPC ctx (.OutHeader addr) t)) ext.TargetPort
            = some (.str port)
        ∧ (host ≠ "" → tagGet (spanTags s (h.HandleRPC ctx (.OutHeader addr) t))
            ext.TargetHost = some (.str host))
        ∧ (host = "" → tagGet (spanTags s (h.HandleRPC ctx (.OutHeader addr) t))
            ext.TargetHost = tagGet (spanTags s t) ext.TargetHost)
        ∧ ((∃ v, Action.setTag s ext.TargetHost v ∈ h.HandleRPC ctx (.OutHeader addr) [])
            ↔ host ≠ "")
        ∧ finishCount s (h.HandleRPC ctx (.OutHeader addr) t) = finishCount s t := by
    intro addr host port hsplit
    have hlog := HandleRPC_OutHeader_ok h ctx s addr host port t hs hsplit
    have hnew := HandleRPC_OutHeader_ok h ctx s addr host port [] hs hsplit
    refine ⟨hlog, ?_, ?_, ?_, ?_, ?_⟩
    · rw [hlog, spanTags_append]
      simp [List.foldl_append, tagStep, tagSet, tagGet, List.lookup]
    · intro hh
      rw [hlog, spanTags_append]
      simp [hh, tagStep, tagSet, tagGet, List.lookup, hne]
    · intro hh
      rw [hlog, spanTags_append]
      simp [hh, tagStep, tagSet, tagGet, List.lookup, hne]
    · rw [hnew]
      by_cases hh : host = ""
      · have hk : ext.TargetHost ≠ ext.TargetPort := by decide
        simp [hh, hk]
      · simp [hh]
    · rw [hlog, finishCount_append]
      by_cases hh : host = "" <;> simp [hh, finishCount, Action.isFinishOf]
  refine ⟨general, ?_, ?_⟩
  · obtain ⟨_, hp, hh, _⟩ := general "1.2.3.4:8200" "1.2.3.4" "8200" rfl
    exact ⟨hh (by decide), hp⟩
  · intro habsent
    obtain ⟨_, hp, _, hh, _⟩ := general ":8200" "" "8200" rfl
    exact ⟨(hh rfl).trans habsent, hp⟩

theorem HandleRPC_OutHeader_tags_witness :
    (tagGet (spanTags 0 ((clientStatsHandler.mk config.zero).HandleRPC ⟨some 0, none⟩
        (.OutHeader "1.2.3.4:8200") [])) ext.TargetHost = some (.str "1.2.3.4")
      ∧ tagGet (spanTags 0 ((clientStatsHandler.mk config.zero).HandleRPC ⟨some 0, none⟩
        (.OutHeader "1.2.3.4:8200") [])) ext.TargetPort = some (.str "8200"))
    ∧ (tagGet (spanTags 0 ((clientStatsHandler.mk config.zero).HandleRPC ⟨some 0, none⟩
        (.OutHeader ":8200") [])) ext.TargetHost = none
      ∧ tagGet (spanTags 0 ((clientStatsHandler.mk config.zero).HandleRPC ⟨some 0, none⟩
        (.OutHeader ":8200") [])) ext.TargetPort = some (.str "8200")) :=
  ⟨(HandleRPC_OutHeader_tags (clientStatsHandler.mk config.zero) ⟨some 0, none⟩ 0 [] rfl).2.1,
    (HandleRPC_OutHeader_tags (clientStatsHandler.mk config.zero) ⟨some 0, none⟩ 0 [] rfl).2.2
      rfl⟩

/-- C2, as the code has it: on a context carrying span `s`, `HandleRPC` calls
`finishWithError` on `s` once for every `End` event of a delivered sequence, whatever
came before; it keeps no per-call state and has no guard. When no `End` event of the
sequence is followed by a further `End` or `OutHeader` event and `s` was not finished
before, `s` is finished at most once and no tag is set on `s` after its finish. -/
theorem deliver_finish_per_End (h : clientStatsHandler) (ctx : Context) (s : SpanId)
    (evs : List RPCStats) (t : Tracer) (hs : tracer.SpanFromContext ctx = some s) :
    finishCount s (deliver h ctx evs t) = finishCount s t + evs.countP RPCStats.isEnd
      ∧ (endIsLast evs = true → finishCount s t = 0 →
          finishCount s (deliver h ctx evs t) ≤ 1
            ∧ taggedAfterFinish s (deliver h ctx evs t) = false) := by
  have hcount : finishCount s (deliver h ctx evs t)
      = finishCount s t + evs.countP RPCStats.isEnd := by
    rw [deliver_append, finishCount_append, deliver_finishCount h ctx s evs hs]
  refine ⟨hcount, ?_⟩
  intro hlast ht
  have hnew : finishCount s (deliver h ctx evs []) ≤ 1
      ∧ taggedAfterFinish s (deliver h ctx evs []) = false := by
    induction evs with
    | nil => exact ⟨Nat.zero_le 1, rfl⟩
    | cons rs rest ih =>
      simp only [endIsLast, Bool.and_eq_true, Bool.or_eq_true, Bool.not_eq_true'] at hlast
      obtain ⟨hrs, hrest⟩ := hlast
      have hih := ih (by
        rw [deliver_append, finishCount_append, deliver_finishCount h ctx s rest hs]) hrest
      rw [deliver_cons]
      cases hrs with
      | inl hne =>
        have h0 : finishCount s (h.HandleRPC ctx rs []) = 0 := by
          rw [HandleRPC_finishCount h ctx s rs hs, hne]; rfl
        refine ⟨?_, ?_⟩
        · rw [finishCount_append, h0]; omega
        · rw [taggedAfterFinish_append, taggedAfterFinish_of_no_finish s _ h0,
            any_isFinishOf_of_no_finish s _ h0, hih.2]
          rfl
      | inr hq =>
        rw [deliver_quiet h ctx rest hq, List.append_nil]
        have h1 := HandleRPC_finishCount h ctx s rs hs
        refine ⟨?_, ?_⟩
        · rw [h1]; split <;> omega
        · cases rs with
          | OutHeader addr =>
            rw [taggedAfterFinish_of_no_finish s _ (by rw [h1]; rfl)]
          | End e =>
            simp [clientStatsHandler.HandleRPC, hs, finishWithError, taggedAfterFinish]
          | _ => rw [taggedAfterFinish_of_no_finish s _ (by rw [h1]; rfl)]
  rw [deliver_append]
  refine ⟨?_, ?_⟩
  · rw [finishCount_append, ht]; omega
  · rw [taggedAfterFinish_append, taggedAfterFinish_of_no_finish s t ht,
      any_isFinishOf_of_no_finish s t ht, hnew.2]
    rfl

theorem deliver_finish_per_End_witness :
    finishCount 0 (deliver (clientStatsHandler.mk config.zero) ⟨some 0, none⟩
        [.OutHeader "1.2.3.4:8200", .End none] [])
      = finishCount 0 [] + [RPCStats.OutHeader "1.2.3.4:8200", RPCStats.End none].countP
          RPCStats.isEnd
    ∧ (endIsLast [.OutHeader "1.2.3.4:8200", .End none] = true → finishCount 0 [] = 0 →
        finishCount 0 (deliver (clientStatsHandler.mk config.zero) ⟨some 0, none⟩
            [.OutHeader "1.2.3.4:8200", .End none] []) ≤ 1
          ∧ taggedAfterFinish 0 (deliver (clientStatsHandler.mk config.zero) ⟨some 0, none⟩
            [.OutHeader "1.2.3.4:8200", .End none] []) = false) :=
  deliver_finish_per_End (clientStatsHandler.mk config.zero) ⟨some 0, none⟩ 0
    [.OutHeader "1.2.3.4:8200", .End none] [] rfl

/-- C2 fails as stated: after `TagRPC`, two `End` events on the returned context finish
the span twice, and an `OutHeader` event after an `End` event tags the finished span. -/
theorem deliver_no_guard :
    finishCount 0 (deliver (clientStatsHandler.mk config.zero)
        ((clientStatsHandler.mk config.zero).TagRPC ⟨none, none⟩ ⟨"/svc/Get", false⟩ []).1
        [.End none, .End none]
        ((clientStatsHandler.mk config.zero).TagRPC ⟨none, none⟩ ⟨"/svc/Get", false⟩ []).2) = 2
    ∧ taggedAfterFinish 0 (deliver (clientStatsHandler.mk config.zero)
        ((clientStatsHandler.mk config.zero).TagRPC ⟨none, none⟩ ⟨"/svc/Get", false⟩ []).1
        [.End none, .OutHeader "1.2.3.4:8200"]
        ((clientStatsHandler.mk config.zero).TagRPC ⟨none, none⟩ ⟨"/svc/Get", false⟩ []).2)
      = true := by
  constructor <;> rfl

/-- C9, as the code has it: for every handler configuration and RPC tag info, `TagRPC`
starts exactly one new span, for the method `rti.FullMethodName` with the configured
span name and service name; its start options are the span kind tag "client" followed
by the configured options, and the returned context carries that span. The span has
kind "client" when no configured option assigns the span kind tag. -/
theorem TagRPC_starts_span (h : clientStatsHandler) (ctx : Context) (rti : RPCTagInfo)
    (t : Tracer) :
    (h.TagRPC ctx rti t).2
        = t ++ [Action.startSpan t.nextSpanId rti.FullMethodName h.cfg.spanName
            h.cfg.serviceName.String
            (tracer.Tag ext.SpanKind (.str ext.SpanKindClient) :: h.cfg.spanOpts)]
      ∧ (∀ a ∈ t, a.span ≠ t.nextSpanId)
      ∧ tracer.SpanFromContext (h.TagRPC ctx rti t).1 = some t.nextSpanId
      ∧ ((∀ o ∈ h.cfg.spanOpts, ∀ c : StartSpanConfig,
            tagGet (o c).Tags ext.SpanKind = tagGet c.Tags ext.SpanKind) →
          tagGet (spanTags t.nextSpanId (h.TagRPC ctx rti t).2) ext.SpanKind
            = some (.str ext.SpanKindClient)) := by
  refine ⟨rfl, nextSpanId_fresh t, rfl, ?_⟩
  intro hkeep
  rw [TagRPC_log, spanTags_after_start]
  unfold startTags
  rw [List.foldl_cons, foldl_startOptions_keep ext.SpanKind h.cfg.spanOpts hkeep]
  simp [tracer.Tag, tagSet, tagGet, List.lookup]

theorem TagRPC_starts_span_witness :
    tagGet (spanTags 0 ((clientStatsHandler.mk
        { config.zero with spanOpts := [tracer.Tag "team" (.str "billing")] }).TagRPC
          ⟨none, none⟩ ⟨"/svc/Get", false⟩ []).2) ext.SpanKind
      = some (.str ext.SpanKindClient) :=
  (TagRPC_starts_span (clientStatsHandler.mk
      { config.zero with spanOpts := [tracer.Tag "team" (.str "billing")] })
    ⟨none, none⟩ ⟨"/svc/Get", false⟩ []).2.2.2 (by
      intro o ho c
      simp only [List.mem_singleton] at ho
      subst ho
      have hne : (ext.SpanKind == "team") = false := by decide
      simp [tracer.Tag, tagSet, tagGet, List.lookup, hne])

/-- C9 fails as stated: a configured start option that assigns the span kind tag is applied
after the handler's own, so the span `TagRPC` starts has that kind and not "client". -/
theorem TagRPC_span_kind_overridden :
    tagGet (spanTags 0 ((clientStatsHandler.mk
        { config.zero with spanOpts := [tracer.Tag ext.SpanKind (.str "server")] }).TagRPC
          ⟨none, none⟩ ⟨"/svc/Get", false⟩ []).2) ext.SpanKind
      = some (.str "server")
    ∧ tagGet (spanTags 0 ((clientStatsHandler.mk
        { config.zero with spanOpts := [tracer.Tag ext.SpanKind (.str "server")] }).TagRPC
          ⟨none, none⟩ ⟨"/svc/Get", false⟩ []).2) ext.SpanKind
      ≠ some (.str ext.SpanKindClient) := by
  have hval : tagGet (spanTags 0 ((clientStatsHandler.mk
        { config.zero with spanOpts := [tracer.Tag ext.SpanKind (.str "server")] }).TagRPC
          ⟨none, none⟩ ⟨"/svc/Get", false⟩ []).2) ext.SpanKind
      = some (.str "server") := rfl
  refine ⟨hval, ?_⟩
  rw [hval]
  decide

/-- C1: a call that follows the collaborator protocol (`TagRPC`, then any number of
`OutHeader` events, then one `End` event, all on the context `TagRPC` returned) adds
to the log one span start, for a new span, then only tag assignments on that span,
then one `finishWithError` on it. So exactly one span is started, it is finished
exactly once, the finish is the last action, no tag follows the finish, and every
target host or target port tag an `OutHeader` event set is on the span when it is
finished, holding a value the events set (the one of the last event, if that one
splits). -/
theorem callRun_one_span (h : clientStatsHandler) (ctx : Context) (rti : RPCTagInfo)
    (addrs : List String) (err : Option GoError) (t : Tracer) :
    ∃ tags : List Action,
      callRun h ctx rti addrs err t
          = t ++ [Action.startSpan t.nextSpanId rti.FullMethodName h.cfg.spanName
                h.cfg.serviceName.String
                (tracer.Tag ext.SpanKind (.str ext.SpanKindClient) :: h.cfg.spanOpts)]
              ++ tags ++ [Action.finishWithError t.nextSpanId err h.cfg]
        ∧ (∀ a ∈ t, a.span ≠ t.nextSpanId)
        ∧ (∀ a ∈ tags, ∃ k v, a = Action.setTag t.nextSpanId k v)
        ∧ startCount (callRun h ctx rti addrs err t) = startCount t + 1
        ∧ finishCount t.nextSpanId (callRun h ctx rti addrs err t) = 1
        ∧ (callRun h ctx rti addrs err t).getLast?
            = some (Action.finishWithError t.nextSpanId err h.cfg)
        ∧ taggedAfterFinish t.nextSpanId (callRun h ctx rti addrs err t) = false
        ∧ (∀ addr ∈ addrs, ∀ host port, net.SplitHostPort addr = .ok (host, port) →
            (∃ v, tagGet (tagsAtFinish t.nextSpanId (callRun h ctx rti addrs err t))
                  ext.TargetPort = some v
                ∧ Action.setTag t.nextSpanId ext.TargetPort v ∈ tags)
            ∧ (host ≠ "" →
                ∃ v, tagGet (tagsAtFinish t.nextSpanId (callRun h ctx rti addrs err t))
                    ext.TargetHost = some v
                  ∧ Action.setTag t.nextSpanId ext.TargetHost v ∈ tags))
        ∧ (∀ pre addr host port, addrs = pre ++ [addr] →
            net.SplitHostPort addr = .ok (host, port) →
            tagGet (tagsAtFinish t.nextSpanId (callRun h ctx rti addrs err t)) ext.TargetPort
                = some (.str port)
              ∧ (host ≠ "" →
                tagGet (tagsAtFinish t.nextSpanId (callRun h ctx rti addrs err t))
                  ext.TargetHost = some (.str host))) := by
  have hctx := TagRPC_ctx h ctx rti t
  have hlog := callRun_log h ctx rti addrs err t
  have hfresh := nextSpanId_fresh t
  have htags := deliver_OutHeaders_setTags h (h.TagRPC ctx rti t).1 t.nextSpanId addrs hctx
  have hmem := deliver_OutHeaders_mem h (h.TagRPC ctx rti t).1 t.nextSpanId addrs hctx
  generalize hT : deliver h (h.TagRPC ctx rti t).1 (addrs.map RPCStats.OutHeader) [] = tags
    at hlog htags hmem
  generalize hS : t.nextSpanId = s at hlog htags hmem hfresh hctx ⊢
  have hcount0 : finishCount s t = 0 := finishCount_of_fresh s t hfresh
  have hcountT : finishCount s tags = 0 := by
    unfold finishCount
    rw [List.countP_eq_zero]
    intro a ha
    obtain ⟨k, v, hk⟩ := htags a ha
    subst hk
    simp [Action.isFinishOf]
  have hstartT : startCount tags = 0 := by
    unfold startCount
    rw [List.countP_eq_zero]
    intro a ha
    obtain ⟨k, v, hk⟩ := htags a ha
    subst hk
    simp [Action.isStart]
  -- the log before the finish
  have hbefore : ∀ a ∈ t ++ [Action.startSpan s rti.FullMethodName h.cfg.spanName
      h.cfg.serviceName.String
      (tracer.Tag ext.SpanKind (.str ext.SpanKindClient) :: h.cfg.spanOpts)] ++ tags,
      (fun a => !(Action.isFinishOf s a)) a = true := by
    intro a ha
    have hc : finishCount s (t ++ [Action.startSpan s rti.FullMethodName h.cfg.spanName
        h.cfg.serviceName.String
        (tracer.Tag ext.SpanKind (.str ext.SpanKindClient) :: h.cfg.spanOpts)] ++ tags) = 0 := by
      rw [finishCount_append, finishCount_append, hcount0, hcountT]
      simp [finishCount, Action.isFinishOf]
    have hany := any_isFinishOf_of_no_finish s _ hc
    rw [List.any_eq_false] at hany
    simpa using hany a ha
  have hsnap : tagsAtFinish s (callRun h ctx rti addrs err t)
      = tags.foldl (tagStep s) (startTags
          (tracer.Tag ext.SpanKind (.str ext.SpanKindClient) :: h.cfg.spanOpts)) := by
    unfold tagsAtFinish
    rw [hlog, takeWhile_append_singleton _ _ _ hbefore (by simp [Action.isFinishOf]),
      spanTags_append, spanTags_after_start]
  refine ⟨tags, hlog, hfresh, htags, ?_, ?_, ?_, ?_, ?_, ?_⟩
  · rw [hlog]
    simp only [startCount, List.countP_append] at hstartT ⊢
    rw [hstartT]
    simp [Action.isStart]
  · rw [hlog, finishCount_append, finishCount_append, finishCount_append, hcount0, hcountT]
    simp [finishCount, Action.isFinishOf]
  · rw [hlog]
    exact List.getLast?_concat _
  · rw [hlog, taggedAfterFinish_append]
    have hc : finishCount s (t ++ [Action.startSpan s rti.FullMethodName h.cfg.spanName
        h.cfg.serviceName.String
        (tracer.Tag ext.SpanKind (.str ext.SpanKindClient) :: h.cfg.spanOpts)] ++ tags) = 0 := by
      rw [finishCount_append, finishCount_append, hcount0, hcountT]
      simp [finishCount, Action.isFinishOf]
    rw [taggedAfterFinish_of_no_finish s _ hc, any_isFinishOf_of_no_finish s _ hc]
    simp [taggedAfterFinish]
  · intro addr ha host port hsp
    obtain ⟨hp, hh⟩ := hmem addr ha host port hsp
    rw [hsnap]
    refine ⟨foldl_setTags_present s tags htags _ _ _ hp, ?_⟩
    intro hne
    exact foldl_setTags_present s tags htags _ _ _ (hh hne)
  · intro pre addr host port hsplit hsp
    rw [hsnap]
    have hdec : tags = deliver h (h.TagRPC ctx rti t).1 (pre.map RPCStats.OutHeader) []
        ++ ((if host ≠ "" then [Action.setTag s ext.TargetHost (.str host)] else [])
          ++ [Action.setTag s ext.TargetPort (.str port)]) := by
      rw [← hT, hsplit, List.map_append, deliver_app]
      congr 1
      have h1 : deliver h (h.TagRPC ctx rti t).1 (List.map RPCStats.OutHeader [addr]) []
          = h.HandleRPC (h.TagRPC ctx rti t).1 (.OutHeader addr) [] := rfl
      rw [h1, HandleRPC_OutHeader_ok h _ s addr host port [] hctx hsp]
      simp
    have hne : (ext.TargetHost == ext.TargetPort) = false := by decide
    rw [hdec]
    refine ⟨?_, ?_⟩
    · simp [List.foldl_append, tagStep, tagSet, tagGet, List.lookup]
    · intro hh
      simp [hh, List.foldl_append, tagStep, tagSet, tagGet, List.lookup, hne]

theorem callRun_one_span_witness :
    finishCount 0 (callRun (clientStatsHandler.mk config.zero) ⟨none, none⟩
      ⟨"/svc/Get", false⟩ ["1.2.3.4:8200"] none []) = 1 :=
  (callRun_one_span (clientStatsHandler.mk config.zero) ⟨none, none⟩
    ⟨"/svc/Get", false⟩ ["1.2.3.4:8200"] none []).elim (fun _ H => H.2.2.2.2.1)

/-- C8: the configuration of the handler `NewClientStatsHandler` returns is the client
defaults with the options applied in call order, left to right: a further option at
the end is applied to the configuration of the options before it, and the last option
that assigns a field decides its value. Analytics rate 0.7 then analytics enabled gives
rate 1.0; analytics enabled then rate 0.7 gives rate 0.7. -/
theorem NewClientStatsHandler_applies_in_order (clientDefaults : config → config)
    (opts : List grpcOption) :
    (NewClientStatsHandler clientDefaults opts).cfg
        = opts.foldl (fun cfg fn => fn.apply cfg) (clientDefaults config.zero)
      ∧ (∀ o : grpcOption, (NewClientStatsHandler clientDefaults (opts ++ [o])).cfg
          = o.apply (NewClientStatsHandler clientDefaults opts).cfg)
      ∧ (∀ (α : Type) (field : config → α) (pre post : List grpcOption) (o : grpcOption)
          (v : α), opts = pre ++ o :: post → (∀ c, field (o.apply c) = v) →
          (∀ p ∈ post, ∀ c, field (p.apply c) = field c) →
          field (NewClientStatsHandler clientDefaults opts).cfg = v)
      ∧ (NewClientStatsHandler clientDefaults
          [WithAnalyticsRate (7 / 10), WithAnalytics true]).cfg.analyticsRate = some 1
      ∧ (NewClientStatsHandler clientDefaults
          [WithAnalytics true, WithAnalyticsRate (7 / 10)]).cfg.analyticsRate
          = some (7 / 10) := by
  refine ⟨loop_eq_foldl opts _, ?_, ?_, rfl, rfl⟩
  · intro o
    unfold NewClientStatsHandler
    simp only []
    rw [loop_append]
    rfl
  · intro α field pre post o v hsplit hset hkeep
    subst hsplit
    unfold NewClientStatsHandler
    simp only []
    rw [loop_append]
    have hstep : NewClientStatsHandler.loop (o :: post)
        (NewClientStatsHandler.loop pre (clientDefaults config.zero))
        = NewClientStatsHandler.loop post
          (o.apply (NewClientStatsHandler.loop pre (clientDefaults config.zero))) := rfl
    rw [hstep, loop_keeps α field post hkeep]
    exact hset _

theorem NewClientStatsHandler_applies_in_order_witness :
    (NewClientStatsHandler (fun cfg => { cfg with analyticsRate := none })
      [WithAnalytics true, WithAnalyticsRate (7 / 10), WithAnalytics false,
        WithAnalyticsRate (3 / 10)]).cfg.analyticsRate = some (3 / 10) :=
  (NewClientStatsHandler_applies_in_order (fun cfg => { cfg with analyticsRate := none })
    [WithAnalytics true, WithAnalyticsRate (7 / 10), WithAnalytics false,
      WithAnalyticsRate (3 / 10)]).2.2.1 (Option ℚ) config.analyticsRate
    [WithAnalytics true, WithAnalyticsRate (7 / 10), WithAnalytics false]
    [] (WithAnalyticsRate (3 / 10)) (some (3 / 10)) rfl (fun _ => rfl)
    (fun p hp => absurd hp (List.not_mem_nil p))

/-- C7: for every request through the instrumented Vault HTTP client that completes with
an error status (400 and above), the error message tag of the finished span is
"<status-code>: <status-text>" and is not empty; a 404 response gives
"404: Not Found". For every request that completes with status 200, and with any
other status below 400, the error message tag is absent. -/
theorem vault_error_message (req : HTTPRequest) :
    (∀ code, vault.isErrorStatus code = true →
        tagGet (vault.finishedSpanTags req code) ext.ErrorMsg
            = some (.str (toString code ++ ": " ++ http.StatusText code))
          ∧ toString code ++ ": " ++ http.StatusText code ≠ "")
      ∧ vault.isErrorStatus 404 = true
      ∧ tagGet (vault.finishedSpanTags req 404) ext.ErrorMsg = some (.str "404: Not Found")
      ∧ tagGet (vault.finishedSpanTags req 200) ext.ErrorMsg = none
      ∧ (∀ code, code < 400 →
          tagGet (vault.finishedSpanTags req code) ext.ErrorMsg = none) := by
  have herr : ∀ code, vault.isErrorStatus code = true →
      tagGet (vault.finishedSpanTags req code) ext.ErrorMsg
        = some (.str (toString code ++ ": " ++ http.StatusText code)) := by
    intro code hc
    unfold vault.finishedSpanTags
    simp only [hc, if_true]
    rw [tagGet_tagSet]
    simp [vault.errorMessage]
  have hok : ∀ code, code < 400 →
      tagGet (vault.finishedSpanTags req code) ext.ErrorMsg = none := by
    intro code hlt
    have hc : vault.isErrorStatus code = false := by
      unfold vault.isErrorStatus
      exact decide_eq_false (Nat.not_le_of_lt hlt)
    unfold vault.finishedSpanTags
    simp only [hc]
    have h1 : ext.ErrorMsg ≠ ext.HTTPCode := by decide
    have h2 : ext.ErrorMsg ≠ ext.ResourceName := by decide
    have h3 : ext.ErrorMsg ≠ ext.HTTPURL := by decide
    have h4 : ext.ErrorMsg ≠ ext.HTTPMethod := by decide
    rw [if_neg (by simp), tagGet_tagSet, if_neg h1, tagGet_tagSet, if_neg h2, tagGet_tagSet,
      if_neg h3, tagGet_tagSet, if_neg h4]
    rfl
  refine ⟨?_, rfl, ?_, hok 200 (by decide), hok⟩
  · intro code hc
    refine ⟨herr code hc, ?_⟩
    intro hempty
    have hlen := congrArg String.length hempty
    simp only [String.length_append] at hlen
    have h2 : (": " : String).length = 2 := by decide
    have h0 : ("" : String).length = 0 := by decide
    omega
  · rw [herr 404 rfl]
    rfl

theorem vault_error_message_witness :
    tagGet (vault.finishedSpanTags ⟨"GET", "/v1/some/bad/key"⟩ 404) ext.ErrorMsg
        = some (.str "404: Not Found")
      ∧ tagGet (vault.finishedSpanTags ⟨"POST", "/v1/sys/mounts/ns1/ns2/secret"⟩ 200)
          ext.ErrorMsg = none :=
  ⟨(vault_error_message ⟨"GET", "/v1/some/bad/key"⟩).2.2.1,
    (vault_error_message ⟨"POST", "/v1/sys/mounts/ns1/ns2/secret"⟩).2.2.2.1⟩

end DDTrace
